import Mathlib

/-!
Verification of the BESS save-state container library: a shallow embedding of
its data model, serializer, builder and decoder, with theorems checking the
documented properties against the code.

Bytes are modelled as natural numbers (machine values are reduced with explicit
mod where the source can overflow).  Fallible or panicking Rust code is
modelled with the `Outcome` type below: `ok` for a returned value, `error` for
a returned `Err`, and `panic` for a Rust panic (assertion failure, `unwrap`,
or an explicit panic).
-/

set_option maxRecDepth 4000

/-- Error type, from `src/error.rs` (`Error`).  Payloads irrelevant to the
claims (the `Io` source error) are dropped. -/
inductive Error where
  | io : Error
  | message : String → Error
  | required : List Nat → Error
  | tooLarge : Error
  | tooShort : Error
  | unsupported : Error
deriving DecidableEq

/-- Outcome of running a fallible Rust computation: a value, a returned error,
or a panic. -/
inductive Outcome (α : Type) where
  | ok : α → Outcome α
  | error : Error → Outcome α
  | panic : Outcome α
deriving DecidableEq

def Outcome.map {α β : Type} (f : α → β) : Outcome α → Outcome β
  | .ok a => .ok (f a)
  | .error e => .error e
  | .panic => .panic

/-- Maximum value of a Rust `u32`. -/
def U32MAX : Nat := 4294967295

/-- Modulus of a Rust `u64`/`usize`. -/
def U64MOD : Nat := 18446744073709551616

/-- Magic number for BESS files: the ASCII string "BESS" as a little-endian
`u32` (`src/lib.rs`, `MAGIC`). -/
def MAGIC : Nat := 0x53534542

/-- Little-endian value of a byte list (`from_le_bytes`). -/
def leNat : List Nat → Nat
  | [] => 0
  | b :: bs => b + 256 * leNat bs

/-- `u8::to_le_bytes` (`src/serde/ser/encode.rs`). -/
def encodeU8 (v : Nat) : List Nat := [v % 256]

/-- `u16::to_le_bytes`. -/
def encodeU16 (v : Nat) : List Nat := [v % 256, v / 256 % 256]

/-- `u32::to_le_bytes`. -/
def encodeU32 (v : Nat) : List Nat :=
  [v % 256, v / 256 % 256, v / 65536 % 256, v / 16777216 % 256]

/-- `u64::to_le_bytes`. -/
def encodeU64 (v : Nat) : List Nat :=
  [v % 256, v / 256 % 256, v / 65536 % 256, v / 16777216 % 256,
   v / 4294967296 % 256, v / 1099511627776 % 256,
   v / 281474976710656 % 256, v / 72057594037927936 % 256]

/-- `Encode for bool` (`src/serde/ser/encode.rs`): `u8::from(*self)`. -/
def encodeBool (b : Bool) : List Nat := [if b then 1 else 0]

/-- `Serializer::serialize_unit_variant` (`src/serde/ser/mod.rs`): the variant
index is written as a `u8` when it fits, else a `u16`, else the full `u32`. -/
def serializeUnitVariant (idx : Nat) : List Nat :=
  if idx ≤ 255 then encodeU8 idx
  else if idx ≤ 65535 then encodeU16 idx
  else encodeU32 idx

/-! ## Data model (`src/block/`, `src/lib.rs`) -/

/-- Block identifier for `NAME`. -/
def NAME_IDENT : List Nat := [78, 65, 77, 69]

/-- Block identifier for `INFO`. -/
def INFO_IDENT : List Nat := [73, 78, 70, 79]

/-- Block identifier for `CORE`. -/
def CORE_IDENT : List Nat := [67, 79, 82, 69]

/-- Block identifier for `END `. -/
def END_IDENT : List Nat := [69, 78, 68, 32]

/-- `Name` block body (`src/block/name.rs`): the emulator name string, held
here as its UTF-8 bytes. -/
structure Name where
  bytes : List Nat
deriving DecidableEq

/-- `Info` block body (`src/block/info.rs`): 16-byte ROM title and a `u16`
global checksum. -/
structure Info where
  title : List Nat
  gchk : Nat
deriving DecidableEq

/-- `Version` (`src/block/core.rs`): BESS major/minor version, both `u16`. -/
structure Version where
  major : Nat
  minor : Nat
deriving DecidableEq

/-- `Model` (`src/block/core.rs`): four-character model identifier
(`[u8; 4]`). -/
structure Model where
  bytes : List Nat
deriving DecidableEq

/-- `Execution` (`src/block/core.rs`): 3-state execution enum. -/
inductive Execution where
  | Running : Execution
  | Halted : Execution
  | Stopped : Execution
deriving DecidableEq

/-- Variant index of `Execution` (Running = 0, Halted = 1, Stopped = 2). -/
def Execution.idx : Execution → Nat
  | .Running => 0
  | .Halted => 1
  | .Stopped => 2

/-- `Registers` (`src/block/core.rs`).  The `mmio` field is the 128-byte
memory-mapped register snapshot (`[u8; 0x80]`). -/
structure Registers where
  pc : Nat
  af : Nat
  bc : Nat
  de : Nat
  hl : Nat
  sp : Nat
  ime : Bool
  ie : Nat
  exe : Execution
  mmio : List Nat
deriving DecidableEq

/-- `Pointer` (`src/block/core.rs`): buffer size and absolute offset, both
`u32`. -/
structure Pointer where
  len : Nat
  ptr : Nat
deriving DecidableEq

/-- `Locations` (`src/block/core.rs`): the seven buffer pointers. -/
structure Locations where
  wram : Pointer
  vram : Pointer
  eram : Pointer
  oam : Pointer
  hram : Pointer
  bgp : Pointer
  obj : Pointer
deriving DecidableEq

/-- `Core` block body (`src/block/core.rs`). -/
structure Core where
  version : Version
  model : Model
  reg : Registers
  mem : Locations
deriving DecidableEq

/-- `Core::LEN` (`src/block/core.rs`): the constant length declared for the
`CORE` block header. -/
def Core.LEN : Nat := 0xd0

/-- `Info::LEN` (`src/block/info.rs`). -/
def Info.LEN : Nat := 0x12

/-- Block body (`Box<dyn Data>` in `src/block/mod.rs`), closed over the body
kinds of this library.  The `unknown` variant (identifier plus raw bytes) is
Modelled from the spec: the source never completed the decode dispatch, so it
has no concrete type for an unrecognized block; the spec requires such a block
to keep its identifier and raw body verbatim. -/
inductive Body where
  | name : Name → Body
  | info : Info → Body
  | core : Core → Body
  | end_ : Body
  | unknown : List Nat → List Nat → Body
deriving DecidableEq

/-- `Header` (`src/block/mod.rs`): 4-byte identifier and `u32` body length. -/
structure Header where
  ident : List Nat
  len : Nat
deriving DecidableEq

/-- `Block` (`src/block/mod.rs`): a header together with the body it was
computed from. -/
structure Block where
  head : Header
  body : Body
deriving DecidableEq

/-- `Footer` (`src/lib.rs`): start offset and magic, both `u32`. -/
structure Footer where
  start : Nat
  magic : Nat
deriving DecidableEq

/-- `Footer::new` (`src/lib.rs`). -/
def Footer.new (start : Nat) : Footer := ⟨start, MAGIC⟩

/-- `Bess` (`src/lib.rs`): context bytes, block list, footer. -/
structure Bess where
  ctx : List Nat
  blx : List Block
  end_ : Footer
deriving DecidableEq

/-- `Data for Name::len` (`src/block/name.rs`): `u32::try_from(len).unwrap()`,
panicking when the string has more than `u32::MAX` bytes. -/
def Name.lenO (n : Name) : Outcome Nat :=
  if n.bytes.length ≤ U32MAX then .ok n.bytes.length else .panic

/-- `Data::len` for each body kind (`src/block/{name,info,core,end}.rs`). -/
def Body.lenO : Body → Outcome Nat
  | .name n => Name.lenO n
  | .info _ => .ok Info.LEN
  | .core _ => .ok Core.LEN
  | .end_ => .ok 0
  | .unknown _ bs => .ok bs.length

/-- `Data::ident` for each body kind; for an unknown body the identifier read
from the stream. -/
def Body.identOf : Body → List Nat
  | .name _ => NAME_IDENT
  | .info _ => INFO_IDENT
  | .core _ => CORE_IDENT
  | .end_ => END_IDENT
  | .unknown i _ => i

/-- `From<T> for Block` (`src/block/mod.rs`): builds the block from a body,
computing the header via `Data::header`. -/
def mkBlock (body : Body) : Outcome Block :=
  match body.lenO with
  | .ok l => .ok ⟨⟨body.identOf, l⟩, body⟩
  | .error e => .error e
  | .panic => .panic

/-- The `END ` block produced by `End.into()`. -/
def endBlock : Block := ⟨⟨END_IDENT, 0⟩, Body.end_⟩

/-! ## Serialization (`src/serde/ser/mod.rs`)

The derived `Serialize` impls write struct fields in declaration order with no
framing; `typetag` wraps each `Box<dyn Data>` in a one-entry map whose key the
`Serializer` silently drops (`SerializeMap::serialize_key` writes nothing), so
a block serializes as identifier, length, then body bytes. -/

/-- Encoded bytes of a `Pointer` (two `u32`s). -/
def encodePointer (p : Pointer) : List Nat := encodeU32 p.len ++ encodeU32 p.ptr

/-- Encoded bytes of a `Core` body: fields in declaration order. -/
def encodeCore (c : Core) : List Nat :=
  encodeU16 c.version.major ++ encodeU16 c.version.minor ++
  c.model.bytes ++
  encodeU16 c.reg.pc ++ encodeU16 c.reg.af ++ encodeU16 c.reg.bc ++
  encodeU16 c.reg.de ++ encodeU16 c.reg.hl ++ encodeU16 c.reg.sp ++
  encodeBool c.reg.ime ++ encodeU8 c.reg.ie ++
  serializeUnitVariant c.reg.exe.idx ++
  Registers.mmio c.reg ++
  encodePointer c.mem.wram ++ encodePointer c.mem.vram ++
  encodePointer c.mem.eram ++ encodePointer c.mem.oam ++
  encodePointer c.mem.hram ++ encodePointer c.mem.bgp ++
  encodePointer c.mem.obj

/-- Encoded bytes of a block body. -/
def encodeBody : Body → List Nat
  | .name n => n.bytes
  | .info i => i.title ++ encodeU16 i.gchk
  | .core c => encodeCore c
  | .end_ => []
  | .unknown _ bs => bs

/-- Encoded bytes of a block: header identifier, header length, body. -/
def encodeBlock (blk : Block) : List Nat :=
  blk.head.ident ++ encodeU32 blk.head.len ++ encodeBody blk.body

/-- Encoded bytes of a block list, back to back. -/
def encodeBlocks : List Block → List Nat
  | [] => []
  | blk :: rest => encodeBlock blk ++ encodeBlocks rest

/-- `to_bytes` (`src/serde/ser/mod.rs`): context bytes verbatim, then the
blocks, then the footer. -/
def encodeBess (b : Bess) : List Nat :=
  b.ctx ++ encodeBlocks b.blx ++ encodeU32 b.end_.start ++ encodeU32 b.end_.magic

/-! ## Builder (`src/build.rs`) -/

/-- `Builder` (`src/build.rs`): optional name and info, required core, extra
blocks. -/
structure Builder where
  name : Option Name
  info : Option Info
  core : Option Core
  xtra : List Block

/-- `Builder::build` (`src/build.rs`): checks that `core` was supplied
(`Required` otherwise), converts bodies to blocks, chains
name?/info?/core/extras/end, and computes the footer from the context length
(`TooLarge` when it exceeds `u32::MAX`). -/
def Builder.build (b : Builder) (ctx : List Nat) : Outcome Bess :=
  match b.core with
  | none => .error (.required CORE_IDENT)
  | some core =>
    match ((match b.name with
            | none => .ok none
            | some n => (mkBlock (.name n)).map some) : Outcome (Option Block)),
          ((match b.info with
            | none => .ok none
            | some i => (mkBlock (.info i)).map some) : Outcome (Option Block)),
          mkBlock (.core core) with
    | .ok nameB, .ok infoB, .ok coreB =>
      let blx := nameB.toList ++ infoB.toList ++ [coreB] ++ b.xtra ++ [endBlock]
      if ctx.length ≤ U32MAX then .ok ⟨ctx, blx, Footer.new ctx.length⟩
      else .error .tooLarge
    | .error e, _, _ => .error e
    | .panic, _, _ => .panic
    | _, .error e, _ => .error e
    | _, .panic, _ => .panic
    | _, _, .error e => .error e
    | _, _, .panic => .panic

/-! ## Concrete test fixture (`src/build.rs`, `tests::setup` and
`tests::BYTES`) -/

/-- The `Core` value of `tests::setup`. -/
def setupCore : Core :=
  { version := ⟨1, 1⟩
    model := ⟨[68, 32, 32, 32]⟩
    reg :=
      { pc := 0x0100
        af := 0x01b0
        bc := 0x0013
        de := 0x00d8
        hl := 0x014d
        sp := 0xfffe
        ime := true
        ie := 0xe0
        exe := .Running
        mmio := [
  255, 0, 126, 255, 207, 0, 0, 248, 255, 255, 255, 255, 255, 255, 255, 225,
  0, 128, 243, 193, 135, 255, 0, 0, 0, 0, 0, 0, 0, 0, 0, 255,
  0, 0, 0, 0, 119, 243, 128, 255, 255, 255, 255, 255, 255, 255, 255, 255,
  0, 0, 0, 0, 0, 0, 0, 0, 0, 0, 0, 0, 0, 0, 0, 0,
  145, 1, 0, 0, 153, 0, 0, 252, 0, 0, 0, 0, 255, 255, 255, 255,
  254, 255, 255, 255, 255, 255, 255, 255, 255, 255, 255, 255, 255, 255, 255, 255,
  255, 255, 255, 255, 255, 255, 255, 255, 255, 255, 255, 255, 255, 255, 255, 255,
  255, 255, 255, 255, 255, 255, 255, 255, 255, 255, 255, 255, 255, 255, 255, 255] }
    mem :=
      { wram := ⟨0x2000, 0xa000⟩
        vram := ⟨0x2000, 0x8000⟩
        eram := ⟨0x2000, 0xc000⟩
        oam := ⟨0x00a0, 0xfe00⟩
        hram := ⟨0x007f, 0xff80⟩
        bgp := ⟨0, 0⟩
        obj := ⟨0, 0⟩ } }

/-- The builder configuration of `tests::setup`: name "bess", info with title
"BESS Testing Rom" and checksum 0xabcd, the core above, no extras. -/
def setupBuilder : Builder :=
  { name := some ⟨[98, 101, 115, 115]⟩
    info := some ⟨[66, 69, 83, 83, 32, 84, 101, 115, 116, 105, 110, 103, 32, 82, 111, 109], 0xabcd⟩
    core := some setupCore
    xtra := [] }

/-- The document produced by `tests::setup` (empty context). -/
def setupBess : Bess :=
  { ctx := []
    blx :=
      [⟨⟨NAME_IDENT, 4⟩, .name ⟨[98, 101, 115, 115]⟩⟩,
       ⟨⟨INFO_IDENT, Info.LEN⟩, .info ⟨[66, 69, 83, 83, 32, 84, 101, 115, 116, 105, 110, 103, 32, 82, 111, 109], 0xabcd⟩⟩,
       ⟨⟨CORE_IDENT, Core.LEN⟩, .core setupCore⟩,
       endBlock]
    end_ := ⟨0, MAGIC⟩ }

/-- `tests::BYTES` (`src/build.rs`): the 269-byte reference buffer. -/
def BYTES : List Nat := [
  78, 65, 77, 69, 4, 0, 0, 0, 98, 101, 115, 115, 73, 78, 70, 79,
  18, 0, 0, 0, 66, 69, 83, 83, 32, 84, 101, 115, 116, 105, 110, 103,
  32, 82, 111, 109, 205, 171, 67, 79, 82, 69, 208, 0, 0, 0, 1, 0,
  1, 0, 68, 32, 32, 32, 0, 1, 176, 1, 19, 0, 216, 0, 77, 1,
  254, 255, 1, 224, 0, 255, 0, 126, 255, 207, 0, 0, 248, 255, 255, 255,
  255, 255, 255, 255, 225, 0, 128, 243, 193, 135, 255, 0, 0, 0, 0, 0,
  0, 0, 0, 0, 255, 0, 0, 0, 0, 119, 243, 128, 255, 255, 255, 255,
  255, 255, 255, 255, 255, 0, 0, 0, 0, 0, 0, 0, 0, 0, 0, 0,
  0, 0, 0, 0, 0, 145, 1, 0, 0, 153, 0, 0, 252, 0, 0, 0,
  0, 255, 255, 255, 255, 254, 255, 255, 255, 255, 255, 255, 255, 255, 255, 255,
  255, 255, 255, 255, 255, 255, 255, 255, 255, 255, 255, 255, 255, 255, 255, 255,
  255, 255, 255, 255, 255, 255, 255, 255, 255, 255, 255, 255, 255, 255, 255, 255,
  255, 255, 255, 255, 255, 0, 32, 0, 0, 0, 160, 0, 0, 0, 32, 0,
  0, 0, 128, 0, 0, 0, 32, 0, 0, 0, 192, 0, 0, 160, 0, 0,
  0, 0, 254, 0, 0, 127, 0, 0, 0, 128, 255, 0, 0, 0, 0, 0,
  0, 0, 0, 0, 0, 0, 0, 0, 0, 0, 0, 0, 0, 69, 78, 68,
  32, 0, 0, 0, 0, 0, 0, 0, 0, 66, 69, 83, 83]


/-! ## Deserializer primitives (`src/serde/de/mod.rs`)

These model the hand-written `Deserializer` methods exactly as the source has
them, including their panics. -/

/-- `Deserializer::pop_ref::<N>`: asserts that `N` bytes remain (a panic when
they do not) and splits them off the front of the input. -/
def popRef (n : Nat) (input : List Nat) : Outcome (List Nat × List Nat) :=
  if n ≤ input.length then .ok (input.take n, input.drop n) else .panic

/-- `Deserializer::deserialize_bool`: pops one byte and matches it; byte 0 is
`false`, byte 1 is `true`, and every other byte hits the bare `panic!()`. -/
def deserializeBool (input : List Nat) : Outcome (Bool × List Nat) :=
  match popRef 1 input with
  | .ok (bs, rest) =>
    match leNat bs with
    | 0 => .ok (false, rest)
    | 1 => .ok (true, rest)
    | _ => .panic
  | .error e => .error e
  | .panic => .panic

/-- `Deserializer::deserialize_u32`: pops four bytes, little endian. -/
def deserializeU32 (input : List Nat) : Outcome (Nat × List Nat) :=
  match popRef 4 input with
  | .ok (bs, rest) => .ok (leNat bs, rest)
  | .error e => .error e
  | .panic => .panic

/-- `EnumAccess::variant_seed`: the decoder reads every variant tag with
`u32::deserialize`, i.e. always four bytes, whatever width the encoder used. -/
def variantSeed (input : List Nat) : Outcome (Nat × List Nat) :=
  deserializeU32 input

/-- `Deserializer::deserialize_char`: unconditionally `Err(Unsupported)`. -/
def deserializeChar (_input : List Nat) : Outcome Unit := .error .unsupported

/-- `Deserializer::deserialize_option`: unconditionally `Err(Unsupported)`. -/
def deserializeOption (_input : List Nat) : Outcome Unit := .error .unsupported

/-! ## Serializer dispatch over value shapes (`src/serde/ser/mod.rs`)

`Value` is the serde data model restricted to the shapes this codec is asked
to transcode; `serializeValue` has one clause per `serialize_*` method of the
`Serializer`, translated from the source. -/

mutual
/-- A structured value presented to the serializer. -/
inductive Value where
  | vBool : Bool → Value
  | vU8 : Nat → Value
  | vU16 : Nat → Value
  | vU32 : Nat → Value
  | vU64 : Nat → Value
  | vChar : Value
  | vStr : List Nat → Value
  | vBytes : List Nat → Value
  | vNone : Value
  | vSome : Value → Value
  | vUnit : Value
  | vUnitVariant : Nat → Value
  | vSeq : ValueSeq → Value
  | vMap : ValueMap → Value
/-- Elements of a sequence or tuple. -/
inductive ValueSeq where
  | nil : ValueSeq
  | cons : Value → ValueSeq → ValueSeq
/-- Key/value entries of an associative map. -/
inductive ValueMap where
  | nil : ValueMap
  | cons : Value → Value → ValueMap → ValueMap
end

mutual
/-- The `Serializer`: integers and floats are fixed-width little-endian,
`char`/`None`/`Some` return `Err(Unsupported)`, text and byte spans are written
verbatim with no length prefix, a unit variant writes its narrow tag. -/
def serializeValue : Value → Outcome (List Nat)
  | .vBool b => .ok (encodeBool b)
  | .vU8 n => .ok (encodeU8 n)
  | .vU16 n => .ok (encodeU16 n)
  | .vU32 n => .ok (encodeU32 n)
  | .vU64 n => .ok (encodeU64 n)
  | .vChar => .error .unsupported
  | .vStr bytes => .ok bytes
  | .vBytes bytes => .ok bytes
  | .vNone => .error .unsupported
  | .vSome _ => .error .unsupported
  | .vUnit => .ok []
  | .vUnitVariant idx => .ok (serializeUnitVariant idx)
  | .vSeq elems => serializeSeq elems
  | .vMap entries => serializeMap entries
/-- `SerializeSeq`/`SerializeTuple`: each element in order, first error wins. -/
def serializeSeq : ValueSeq → Outcome (List Nat)
  | .nil => .ok []
  | .cons v vs =>
    match serializeValue v with
    | .ok a =>
      match serializeSeq vs with
      | .ok b => .ok (a ++ b)
      | .error e => .error e
      | .panic => .panic
    | .error e => .error e
    | .panic => .panic
/-- `SerializeMap`: `serialize_key` writes nothing (the key is dropped);
`serialize_value` writes the value. -/
def serializeMap : ValueMap → Outcome (List Nat)
  | .nil => .ok []
  | .cons _ v rest =>
    match serializeValue v with
    | .ok a =>
      match serializeMap rest with
      | .ok b => .ok (a ++ b)
      | .error e => .error e
      | .panic => .panic
    | .error e => .error e
    | .panic => .panic
end

/-! ## Document decoding (`src/serde/de/decode.rs`)

`Decode for Bess` reads the footer from the trailing eight bytes, slices the
context and the block region, then loops over the block region.  The footer
and slicing arithmetic below follow the source (`usize` subtraction wraps
modulo 2^64); the per-block dispatch is Modelled from the spec, because the
loop body in the source is an unfinished `todo!()` stub (spec §9 directs that
the behaviour of §4.2/§4.4 is normative for it). -/

/-- Rust `buf.get(a..)`: `some` of the suffix when `a` is in bounds. -/
def getFrom (l : List Nat) (a : Nat) : Option (List Nat) :=
  if a ≤ l.length then some (l.drop a) else none

/-- Rust `buf.get(..b)`. -/
def getTo (l : List Nat) (b : Nat) : Option (List Nat) :=
  if b ≤ l.length then some (l.take b) else none

/-- Rust `buf.get(a..b)`. -/
def getRange (l : List Nat) (a b : Nat) : Option (List Nat) :=
  if a ≤ b ∧ b ≤ l.length then some ((l.drop a).take (b - a)) else none

/-- `Footer::deserialize`: the two `u32` fields in declaration order (the
derived struct visitor reads fields positionally; it panics, via `pop_ref`,
when fewer than eight bytes remain). -/
def decodeFooter (bs : List Nat) : Outcome Footer :=
  if 8 ≤ bs.length then .ok ⟨leNat (bs.take 4), leNat ((bs.drop 4).take 4)⟩
  else .panic

/-- Modelled from the spec: boolean decoding (§4.1) inside the intended block
decoder — one byte, 0 or 1, anything else is a decode error. -/
def decodeBoolByte (b : Nat) : Outcome Bool :=
  if b = 0 then .ok false
  else if b = 1 then .ok true
  else .error (.message "invalid bool")

/-- Modelled from the spec: the `Execution` variant for a decoded tag byte;
an index outside 0..2 is a decode error. -/
def decodeExeByte (b : Nat) : Outcome Execution :=
  if b = 0 then .ok .Running
  else if b = 1 then .ok .Halted
  else if b = 2 then .ok .Stopped
  else .error (.message "invalid variant")

/-- A `Pointer` read at a byte offset of a `CORE` body. -/
def decodePointerAt (bs : List Nat) (off : Nat) : Pointer :=
  ⟨leNat ((bs.drop off).take 4), leNat ((bs.drop (off + 4)).take 4)⟩

/-- Modelled from the spec: the intended `CORE` body decoder — the fields of
`Core` in declaration order (207 bytes consumed). -/
def decodeCore (bs : List Nat) : Outcome Body :=
  if 207 ≤ bs.length then
    match decodeBoolByte (bs.getD 20 0), decodeExeByte (bs.getD 22 0) with
    | .ok ime, .ok exe =>
      .ok (.core
        { version := ⟨leNat (bs.take 2), leNat ((bs.drop 2).take 2)⟩
          model := ⟨(bs.drop 4).take 4⟩
          reg :=
            { pc := leNat ((bs.drop 8).take 2)
              af := leNat ((bs.drop 10).take 2)
              bc := leNat ((bs.drop 12).take 2)
              de := leNat ((bs.drop 14).take 2)
              hl := leNat ((bs.drop 16).take 2)
              sp := leNat ((bs.drop 18).take 2)
              ime := ime
              ie := bs.getD 21 0
              exe := exe
              mmio := (bs.drop 23).take 128 }
          mem :=
            { wram := decodePointerAt bs 151
              vram := decodePointerAt bs 159
              eram := decodePointerAt bs 167
              oam := decodePointerAt bs 175
              hram := decodePointerAt bs 183
              bgp := decodePointerAt bs 191
              obj := decodePointerAt bs 199 } })
    | .error e, _ => .error e
    | .panic, _ => .panic
    | _, .error e => .error e
    | _, .panic => .panic
  else .error .tooShort

/-- Modelled from the spec: the intended `INFO` body decoder — 16 title bytes
then the `u16` checksum. -/
def decodeInfo (bs : List Nat) : Outcome Body :=
  if 18 ≤ bs.length then .ok (.info ⟨bs.take 16, leNat ((bs.drop 16).take 2)⟩)
  else .error .tooShort

/-- Modelled from the spec: the intended per-identifier dispatch of §4.2 — a
registered decoder for the four known identifiers, and an `unknown` body
keeping the identifier and raw bytes verbatim otherwise. -/
def decodeBody (ident bs : List Nat) : Outcome Body :=
  if ident = NAME_IDENT then .ok (.name ⟨bs⟩)
  else if ident = INFO_IDENT then decodeInfo bs
  else if ident = CORE_IDENT then decodeCore bs
  else if ident = END_IDENT then .ok .end_
  else .ok (.unknown ident bs)

/-- Modelled from the spec: one block read of §4.2 — 4-byte identifier, `u32`
length, then exactly `length` body bytes handed to the body decoder;
`TooShort` when fewer than 8 header bytes or fewer than `length` body bytes
remain. -/
def decodeBlock (input : List Nat) : Outcome (Block × List Nat) :=
  if 8 ≤ input.length then
    let ident := input.take 4
    let len := leNat ((input.drop 4).take 4)
    let rest := input.drop 8
    if len ≤ rest.length then
      match decodeBody ident (rest.take len) with
      | .ok body => .ok (⟨⟨ident, len⟩, body⟩, rest.drop len)
      | .error e => .error e
      | .panic => .panic
    else .error .tooShort
  else .error .tooShort

/-- The block-region loop of `Decode for Bess`, with explicit fuel (each step
consumes at least eight bytes, so `input.length` is always enough fuel). -/
def decodeBlocksF : Nat → List Nat → Outcome (List Block)
  | _, [] => .ok []
  | 0, _ :: _ => .panic
  | fuel + 1, b :: input =>
    match decodeBlock (b :: input) with
    | .ok (blk, rest) => (decodeBlocksF fuel rest).map (fun bs => blk :: bs)
    | .error e => .error e
    | .panic => .panic

/-- The block-region loop at its natural fuel. -/
def decodeBlocks (input : List Nat) : Outcome (List Block) :=
  decodeBlocksF input.length input

/-- Context and block-region slicing of `Decode for Bess`: `buf.get(..start)`
for the context and `buf.get(start..ftx)` for the block region, each
`TooShort` when out of bounds, then the block loop. -/
def decodeSlices (buf : List Nat) (ftx : Nat) (footer : Footer) : Outcome Bess :=
  match getTo buf footer.start with
  | none => .error .tooShort
  | some ctx =>
    match getRange buf footer.start ftx with
    | none => .error .tooShort
    | some region =>
      (decodeBlocks region).map (fun blx => ⟨ctx, blx, footer⟩)

/-- Footer deserialization step of `Decode for Bess`, followed by the
slicing. -/
def decodeTail (buf : List Nat) (ftx : Nat) (fbytes : List Nat) : Outcome Bess :=
  match decodeFooter fbytes with
  | .error e => .error e
  | .panic => .panic
  | .ok footer => decodeSlices buf ftx footer

/-- The footer offset `buf.len() - size_of::<Footer>()` of `Decode for Bess`:
`usize` subtraction of 8, wrapping modulo 2^64. -/
def wrappingSub8 (n : Nat) : Nat := (n + (U64MOD - 8)) % U64MOD

/-- The body of `Decode for Bess` at a given footer offset: the trailing
slice `buf.get(ftx..)` is `TooShort` when out of bounds, then the footer is
read and the context and blocks are sliced and decoded. -/
def decodeWith (buf : List Nat) (ftx : Nat) : Outcome Bess :=
  match getFrom buf ftx with
  | none => .error .tooShort
  | some fbytes => decodeTail buf ftx fbytes

/-- `Decode for Bess` (`src/serde/de/decode.rs`): decode at the wrapping
footer offset. -/
def Bess.decode (buf : List Nat) : Outcome Bess :=
  decodeWith buf (wrappingSub8 buf.length)

/-! ## Helper lemmas -/

theorem encodeU32_length (v : Nat) : (encodeU32 v).length = 4 := rfl

theorem leNat_encodeU32 (v : Nat) : leNat (encodeU32 v) = v % 4294967296 := by
  simp [encodeU32, leNat]
  omega

theorem getFrom_append (l₁ l₂ : List Nat) : getFrom (l₁ ++ l₂) l₁.length = some l₂ := by
  simp [getFrom, List.drop_left]

theorem getTo_append (l₁ l₂ : List Nat) : getTo (l₁ ++ l₂) l₁.length = some l₁ := by
  simp [getTo, List.take_left]

theorem getRange_append (l₁ l₂ l₃ : List Nat) :
    getRange (l₁ ++ (l₂ ++ l₃)) l₁.length (l₁.length + l₂.length) = some l₂ := by
  rw [getRange, if_pos]
  · rw [List.drop_left, Nat.add_sub_cancel_left, List.take_left]
  · refine ⟨Nat.le_add_right _ _, ?_⟩
    simp only [List.length_append]
    omega

theorem mkBlock_name {n : Name} (h : n.bytes.length ≤ U32MAX) :
    mkBlock (Body.name n) = .ok ⟨⟨NAME_IDENT, n.bytes.length⟩, .name n⟩ := by
  simp only [mkBlock, Body.lenO, Name.lenO, Body.identOf]
  rw [if_pos h]

theorem mkBlock_info (i : Info) :
    mkBlock (Body.info i) = .ok ⟨⟨INFO_IDENT, Info.LEN⟩, .info i⟩ := rfl

theorem mkBlock_core (c : Core) :
    mkBlock (Body.core c) = .ok ⟨⟨CORE_IDENT, Core.LEN⟩, .core c⟩ := rfl

theorem decodeBlock_append (ident body rest : List Nat)
    (hid : ident.length = 4) (hb : body.length < 4294967296) :
    decodeBlock (ident ++ (encodeU32 body.length ++ (body ++ rest))) =
      match decodeBody ident body with
      | .ok bd => .ok (⟨⟨ident, body.length⟩, bd⟩, rest)
      | .error e => .error e
      | .panic => .panic := by
  have h8 : 8 ≤ (ident ++ (encodeU32 body.length ++ (body ++ rest))).length := by
    simp [List.length_append, hid, encodeU32]
    omega
  have hd4 : (ident ++ (encodeU32 body.length ++ (body ++ rest))).drop 4 =
      encodeU32 body.length ++ (body ++ rest) := List.drop_left' hid
  have ht4 : (ident ++ (encodeU32 body.length ++ (body ++ rest))).take 4 = ident :=
    List.take_left' hid
  have hd8 : (ident ++ (encodeU32 body.length ++ (body ++ rest))).drop 8 = body ++ rest := by
    rw [show (8 : Nat) = 4 + 4 from rfl, ← List.drop_drop, hd4,
      List.drop_left' (encodeU32_length _)]
  have ht4b : (encodeU32 body.length ++ (body ++ rest)).take 4 = encodeU32 body.length :=
    List.take_left' (encodeU32_length _)
  have htb : (body ++ rest).take body.length = body := List.take_left body rest
  have hdb : (body ++ rest).drop body.length = rest := List.drop_left body rest
  simp only [decodeBlock, hd4, ht4, hd8, ht4b, leNat_encodeU32, Nat.mod_eq_of_lt hb, htb, hdb]
  rw [if_pos h8, if_pos (by simp only [List.length_append]; omega)]

theorem decodeBlock_short (ident rest : List Nat) (lenv : Nat)
    (hid : ident.length = 4) (h : rest.length < lenv % 4294967296) :
    decodeBlock (ident ++ (encodeU32 lenv ++ rest)) = .error .tooShort := by
  have h8 : 8 ≤ (ident ++ (encodeU32 lenv ++ rest)).length := by
    simp [List.length_append, hid, encodeU32]
    omega
  have hd4 : (ident ++ (encodeU32 lenv ++ rest)).drop 4 = encodeU32 lenv ++ rest :=
    List.drop_left' hid
  have hd8 : (ident ++ (encodeU32 lenv ++ rest)).drop 8 = rest := by
    rw [show (8 : Nat) = 4 + 4 from rfl, ← List.drop_drop, hd4,
      List.drop_left' (encodeU32_length _)]
  have ht4b : (encodeU32 lenv ++ rest).take 4 = encodeU32 lenv :=
    List.take_left' (encodeU32_length _)
  simp only [decodeBlock, hd4, hd8, ht4b, leNat_encodeU32]
  rw [if_pos h8, if_neg (by omega)]

theorem decodeBlock_rest_length {input : List Nat} {blk : Block} {rest : List Nat}
    (h : decodeBlock input = .ok (blk, rest)) : rest.length < input.length := by
  simp only [decodeBlock] at h
  split at h
  · split at h
    · split at h
      · injection h with h'
        cases h'
        simp only [List.length_drop]
        omega
      · exact absurd h (by simp)
      · exact absurd h (by simp)
    · exact absurd h (by simp)
  · exact absurd h (by simp)

theorem decodeBlocksF_congr :
    ∀ (f₁ f₂ : Nat) (input : List Nat), input.length ≤ f₁ → input.length ≤ f₂ →
      decodeBlocksF f₁ input = decodeBlocksF f₂ input := by
  intro f₁
  induction f₁ with
  | zero =>
    intro f₂ input h1 _
    have hnil : input = [] := List.eq_nil_of_length_eq_zero (Nat.le_zero.mp h1)
    subst hnil
    cases f₂ <;> rfl
  | succ g ih =>
    intro f₂ input h1 h2
    cases input with
    | nil => cases f₂ <;> rfl
    | cons b tl =>
      cases f₂ with
      | zero => simp at h2
      | succ g₂ =>
        simp only [decodeBlocksF]
        cases hd : decodeBlock (b :: tl) with
        | ok pr =>
          obtain ⟨blk, rest⟩ := pr
          have hlt := decodeBlock_rest_length hd
          simp only [List.length_cons] at h1 h2 hlt
          show Outcome.map (fun bs => blk :: bs) (decodeBlocksF g rest) =
            Outcome.map (fun bs => blk :: bs) (decodeBlocksF g₂ rest)
          rw [ih g₂ rest (by omega) (by omega)]
        | error e => rfl
        | panic => rfl

theorem decodeBlocks_eq_F (f : Nat) (input : List Nat) (h : input.length ≤ f) :
    decodeBlocksF f input = decodeBlocks input :=
  decodeBlocksF_congr f input.length input h (Nat.le_refl _)

theorem decodeBlocksF_succ_of_ne_nil (f : Nat) (input : List Nat) (h : input ≠ []) :
    decodeBlocksF (f + 1) input =
      match decodeBlock input with
      | .ok (blk, rest) => (decodeBlocksF f rest).map (fun bs => blk :: bs)
      | .error e => .error e
      | .panic => .panic := by
  cases input with
  | nil => exact absurd rfl h
  | cons b tl => rfl

/-! ## Claim theorems -/

/-- Claim C2: the claim says every block's `header.len` equals the encoded
byte length of its body.  The code violates this for `CORE`: the header
constant `Core::LEN` is 208 (`0xd0`, the official BESS size, which includes a
reserved byte at offset 0x17), but the `Core` struct has no such byte and its
body serializes to 207 bytes.  This theorem evaluates both numbers on the
`tests::setup` core. -/
theorem core_header_len_mismatch :
    Core.LEN = 208 ∧
    (encodeBody (Body.core setupCore)).length = 207 ∧
    mkBlock (Body.core setupCore) = .ok ⟨⟨CORE_IDENT, 208⟩, .core setupCore⟩ := by
  decide

/-- Claim C1: the claim says `decode(encode(d))` succeeds and reproduces any
built document.  It fails on the code: building the `tests::setup` document
and encoding it, then decoding (with the intended, spec-directed block
dispatch — the in-repo loop body is a `todo!()` that panics) returns
`TooShort`, because the `CORE` header declares 208 body bytes while the body
encodes to 207, desynchronizing the block stream and truncating the `END `
block. -/
theorem decode_encode_setup_fails :
    Builder.build setupBuilder [] = .ok setupBess ∧
    Bess.decode (encodeBess setupBess) = .error .tooShort := by
  decide

/-- Claim C4 counterexample: the claim calls the reference buffer 222 bytes
long; the encoding of the `tests::setup` document (byte-for-byte equal to
`tests::BYTES`) is 269 bytes long, so it cannot equal any 222-byte buffer. -/
theorem reference_buffer_not_222 : (encodeBess setupBess).length ≠ 222 := by
  decide

/-- Claim C4 (amended): encoding the `tests::setup` document produces exactly
the 269-byte reference buffer `tests::BYTES`, whose final eight bytes are
`00 00 00 00 42 45 53 53`. -/
theorem encode_setup_reference :
    encodeBess setupBess = BYTES ∧ BYTES.length = 269 ∧
    BYTES.drop 261 = [0, 0, 0, 0, 66, 69, 83, 83] := by
  decide

/-- Claim C5: the claim says the decoder reads the variant tag at the same
width the encoder wrote it.  The encoder does use the narrow widths (one byte
for index 0, two for 300, four for 70000), but `variant_seed` always reads a
full `u32`: on the 1-byte encoding of `Execution::Running` it needs four bytes
and panics in `pop_ref`, and it accepts a 4-byte tag instead. -/
theorem variant_tag_width_asymmetry :
    serializeUnitVariant (Execution.idx .Running) = [0] ∧
    serializeUnitVariant 300 = [44, 1] ∧
    serializeUnitVariant 70000 = [112, 17, 1, 0] ∧
    variantSeed [0] = .panic ∧
    variantSeed [0, 0, 0, 0] = .ok (0, []) := by
  decide

/-- Claim C6: boolean decoding consumes exactly one byte and maps 0 to false
and 1 to true, but on any other byte (e.g. 2) the source hits a bare
`panic!()` instead of returning a decode error to the caller. -/
theorem deserialize_bool_panics_on_invalid :
    deserializeBool [0] = .ok (false, []) ∧
    deserializeBool [1] = .ok (true, []) ∧
    deserializeBool [1, 7, 8] = .ok (true, [7, 8]) ∧
    deserializeBool [2] = .panic := by
  decide

/-- Claim C8 counterexample: the claim says serializing an associative map
fails with `Unsupported`; in fact `serialize_map` accepts the map, the key is
silently dropped and the value bytes are written (here the one-entry map from
`u8` 1 to `u8` 2 encodes to the single byte 2). -/
theorem serialize_map_succeeds :
    serializeValue (.vMap (.cons (.vU8 1) (.vU8 2) .nil)) = .ok [2] := by
  decide

/-- Claim C8 (amended): nullable values and chars fail with `Unsupported` in
both directions, but an associative map is accepted by the encoder, which
ignores the keys entirely (the encoding does not depend on them) and writes
only the values. -/
theorem unsupported_shapes_amended (v k k2 val : Value) (rest : ValueMap)
    (input : List Nat) :
    serializeValue .vNone = .error .unsupported ∧
    serializeValue (.vSome v) = .error .unsupported ∧
    serializeValue .vChar = .error .unsupported ∧
    deserializeChar input = .error .unsupported ∧
    deserializeOption input = .error .unsupported ∧
    serializeValue (.vMap (.cons k val rest)) =
      serializeValue (.vMap (.cons k2 val rest)) := by
  refine ⟨?_, ?_, ?_, rfl, rfl, ?_⟩ <;> simp [serializeValue, serializeMap]

/-- Claim C10: when a `Name` has at most `u32::MAX` bytes, converting it to a
block is total — the `u32::try_from(...).unwrap()` in `Data for Name::len`
cannot panic — and the resulting header length is exactly the byte length. -/
theorem name_header_total (n : Name) (h : n.bytes.length ≤ U32MAX) :
    mkBlock (Body.name n) = .ok ⟨⟨NAME_IDENT, n.bytes.length⟩, .name n⟩ :=
  mkBlock_name h

/-- Witness for C10 at the concrete name "b". -/
theorem name_header_total_witness :
    ((⟨[98, 101, 115, 115]⟩ : Name).bytes.length ≤ U32MAX) ∧
    mkBlock (Body.name ⟨[98, 101, 115, 115]⟩) =
      .ok ⟨⟨NAME_IDENT, 4⟩, .name ⟨[98, 101, 115, 115]⟩⟩ :=
  ⟨by decide, name_header_total ⟨[98, 101, 115, 115]⟩ (by decide)⟩

/-- Claim C3: decoding a block stream that starts with a block carrying an
unrecognized identifier and a valid length succeeds for that block — the
identifier and the raw body bytes are preserved verbatim in an unknown body —
and decoding continues with the subsequent blocks (spec-modelled dispatch;
the in-repo loop body is a `todo!()` stub). -/
theorem decode_unknown_passthrough (ident body rest : List Nat)
    (hid : ident.length = 4) (hb : body.length < 4294967296)
    (h1 : ident ≠ NAME_IDENT) (h2 : ident ≠ INFO_IDENT)
    (h3 : ident ≠ CORE_IDENT) (h4 : ident ≠ END_IDENT) :
    decodeBlocks (ident ++ encodeU32 body.length ++ body ++ rest) =
      (decodeBlocks rest).map
        (fun bs => ⟨⟨ident, body.length⟩, .unknown ident body⟩ :: bs) := by
  have hassoc : ident ++ encodeU32 body.length ++ body ++ rest =
      ident ++ (encodeU32 body.length ++ (body ++ rest)) := by
    simp [List.append_assoc]
  rw [hassoc]
  have hlen : (ident ++ (encodeU32 body.length ++ (body ++ rest))).length =
      (7 + body.length + rest.length) + 1 := by
    simp [List.length_append, hid, encodeU32]
    omega
  have hne : ident ++ (encodeU32 body.length ++ (body ++ rest)) ≠ [] := by
    intro hcon
    rw [hcon] at hlen
    simp at hlen
  rw [decodeBlocks, hlen, decodeBlocksF_succ_of_ne_nil _ _ hne,
    decodeBlock_append ident body rest hid hb]
  have hdb : decodeBody ident body = .ok (.unknown ident body) := by
    simp [decodeBody, h1, h2, h3, h4]
  rw [hdb]
  show Outcome.map _ (decodeBlocksF (7 + body.length + rest.length) rest) = _
  rw [decodeBlocks_eq_F _ _ (by omega)]

/-- Witness for C3: an unknown block tagged "TEST" with a 3-byte body,
followed by an `END ` block, decodes to the unknown block followed by the
decoded remainder. -/
theorem decode_unknown_passthrough_witness :
    (([84, 69, 83, 84] : List Nat).length = 4) ∧
    (([9, 9, 9] : List Nat).length < 4294967296) ∧
    ([84, 69, 83, 84] ≠ NAME_IDENT) ∧ ([84, 69, 83, 84] ≠ INFO_IDENT) ∧
    ([84, 69, 83, 84] ≠ CORE_IDENT) ∧ ([84, 69, 83, 84] ≠ END_IDENT) ∧
    decodeBlocks ([84, 69, 83, 84] ++ encodeU32 ([9, 9, 9] : List Nat).length ++
        [9, 9, 9] ++ [69, 78, 68, 32, 0, 0, 0, 0]) =
      (decodeBlocks [69, 78, 68, 32, 0, 0, 0, 0]).map
        (fun bs =>
          ⟨⟨[84, 69, 83, 84], ([9, 9, 9] : List Nat).length⟩,
            .unknown [84, 69, 83, 84] [9, 9, 9]⟩ :: bs) :=
  ⟨by decide, by decide, by decide, by decide, by decide, by decide,
    decode_unknown_passthrough [84, 69, 83, 84] [9, 9, 9] [69, 78, 68, 32, 0, 0, 0, 0]
      (by decide) (by decide) (by decide) (by decide) (by decide) (by decide)⟩

theorem decodeWith_oob (buf : List Nat) (ftx : Nat) (h : buf.length < ftx) :
    decodeWith buf ftx = .error .tooShort := by
  have hnone : getFrom buf ftx = none := by
    rw [getFrom, if_neg (by omega)]
  simp only [decodeWith, hnone]

theorem decodeWith_append (l₁ l₂ : List Nat) :
    decodeWith (l₁ ++ l₂) l₁.length = decodeTail (l₁ ++ l₂) l₁.length l₂ := by
  simp only [decodeWith, getFrom_append]

theorem decodeTail_ok (buf : List Nat) (ftx : Nat) (fbytes : List Nat) (footer : Footer)
    (h : decodeFooter fbytes = .ok footer) :
    decodeTail buf ftx fbytes = decodeSlices buf ftx footer := by
  simp only [decodeTail, h]

theorem decodeSlices_eq (buf : List Nat) (ftx : Nat) (footer : Footer)
    (ctx region : List Nat)
    (h1 : getTo buf footer.start = some ctx)
    (h2 : getRange buf footer.start ftx = some region) :
    decodeSlices buf ftx footer =
      (decodeBlocks region).map (fun blx => ⟨ctx, blx, footer⟩) := by
  simp only [decodeSlices, h1, h2]

/-- Claim C7: decoding a buffer shorter than eight bytes returns `TooShort`
(the wrapping `usize` subtraction makes the footer slice out of bounds), and
decoding a buffer whose first block declares a body length larger than the
bytes remaining before the footer returns `TooShort` (spec-modelled block
loop); neither case panics or yields a partial document. -/
theorem decode_tooshort_truncation :
    (∀ buf : List Nat, buf.length < 8 → Bess.decode buf = .error .tooShort) ∧
    (∀ (ctx ident rest : List Nat) (lenv magicv : Nat),
      ident.length = 4 → ctx.length ≤ U32MAX → rest.length < lenv % 4294967296 →
      Bess.decode (ctx ++ ident ++ encodeU32 lenv ++ rest ++
          encodeU32 ctx.length ++ encodeU32 magicv) = .error .tooShort) := by
  constructor
  · intro buf h
    have hU : U64MOD = 18446744073709551616 := rfl
    have hlt : buf.length < wrappingSub8 buf.length := by
      simp only [wrappingSub8, hU]
      omega
    exact decodeWith_oob buf _ hlt
  · intro ctx ident rest lenv magicv hid hctx hrest
    have hU : U64MOD = 18446744073709551616 := rfl
    have hU32 : U32MAX = 4294967295 := rfl
    have hL : ctx ++ ident ++ encodeU32 lenv ++ rest ++
        encodeU32 ctx.length ++ encodeU32 magicv =
        (ctx ++ (ident ++ (encodeU32 lenv ++ rest))) ++
          (encodeU32 ctx.length ++ encodeU32 magicv) := by
      simp [List.append_assoc]
    rw [hL]
    have hprelen : (ctx ++ (ident ++ (encodeU32 lenv ++ rest))).length =
        ctx.length + (8 + rest.length) := by
      simp [List.length_append, hid, encodeU32]
      omega
    have hsuflen : (encodeU32 ctx.length ++ encodeU32 magicv).length = 8 := by
      simp [List.length_append, encodeU32]
    have htot : ((ctx ++ (ident ++ (encodeU32 lenv ++ rest))) ++
        (encodeU32 ctx.length ++ encodeU32 magicv)).length =
        (ctx ++ (ident ++ (encodeU32 lenv ++ rest))).length + 8 := by
      rw [List.length_append, hsuflen]
    have hmod : wrappingSub8 ((ctx ++ (ident ++ (encodeU32 lenv ++ rest))) ++
        (encodeU32 ctx.length ++ encodeU32 magicv)).length =
        (ctx ++ (ident ++ (encodeU32 lenv ++ rest))).length := by
      simp only [wrappingSub8]
      rw [htot]
      have h1 : (ctx ++ (ident ++ (encodeU32 lenv ++ rest))).length + 8 + (U64MOD - 8) =
          (ctx ++ (ident ++ (encodeU32 lenv ++ rest))).length + U64MOD := by
        omega
      rw [h1, Nat.add_mod_right]
      exact Nat.mod_eq_of_lt (by rw [hprelen]; omega)
    have hfoot : decodeFooter (encodeU32 ctx.length ++ encodeU32 magicv) =
        .ok ⟨ctx.length, magicv % 4294967296⟩ := by
      rw [decodeFooter, if_pos hsuflen.ge,
        List.take_left' (encodeU32_length _), List.drop_left' (encodeU32_length _),
        List.take_of_length_le (encodeU32_length magicv).le,
        leNat_encodeU32, leNat_encodeU32, Nat.mod_eq_of_lt (by omega)]
    have hgetTo : getTo ((ctx ++ (ident ++ (encodeU32 lenv ++ rest))) ++
        (encodeU32 ctx.length ++ encodeU32 magicv)) ctx.length = some ctx := by
      rw [List.append_assoc]
      exact getTo_append ctx _
    have hgr : getRange ((ctx ++ (ident ++ (encodeU32 lenv ++ rest))) ++
        (encodeU32 ctx.length ++ encodeU32 magicv)) ctx.length
        ((ctx ++ (ident ++ (encodeU32 lenv ++ rest))).length) =
        some (ident ++ (encodeU32 lenv ++ rest)) := by
      rw [List.append_assoc, List.length_append]
      exact getRange_append ctx _ _
    have hbl : decodeBlocks (ident ++ (encodeU32 lenv ++ rest)) = .error .tooShort := by
      have hrl : (ident ++ (encodeU32 lenv ++ rest)).length = (7 + rest.length) + 1 := by
        simp [List.length_append, hid, encodeU32]
        omega
      have hne : ident ++ (encodeU32 lenv ++ rest) ≠ [] := by
        intro hcon
        rw [hcon] at hrl
        simp at hrl
      rw [decodeBlocks, hrl, decodeBlocksF_succ_of_ne_nil _ _ hne,
        decodeBlock_short ident rest lenv hid hrest]
    simp only [Bess.decode]
    rw [hmod, decodeWith_append, decodeTail_ok _ _ _ _ hfoot,
      decodeSlices_eq _ _ _ ctx _ hgetTo hgr, hbl]
    rfl

/-- Witness for C7: a 3-byte buffer fails with `TooShort`, and a buffer whose
single block header declares five body bytes but provides none fails with
`TooShort`. -/
theorem decode_tooshort_truncation_witness :
    Bess.decode [1, 2, 3] = .error .tooShort ∧
    Bess.decode (([] : List Nat) ++ [84, 69, 83, 84] ++ encodeU32 5 ++ ([] : List Nat) ++
      encodeU32 ([] : List Nat).length ++ encodeU32 0) = .error .tooShort :=
  ⟨decode_tooshort_truncation.1 [1, 2, 3] (by decide),
   decode_tooshort_truncation.2 [] [84, 69, 83, 84] [] 5 0
     (by decide) (by decide) (by decide)⟩

/-- Claim C9 counterexample: the claim promises exactly one `END ` block for
any sequence of extra blocks, but `Builder::block` accepts an `End` body, and
building with one `End` extra yields a document containing two `END `
blocks. -/
theorem build_double_end :
    (Builder.build ⟨none, none, some setupCore, [endBlock]⟩ []).map
      (fun bess => bess.blx.countP (fun blk => decide (blk.head.ident = END_IDENT))) =
    .ok 2 := by
  decide

/-- Claim C9 (amended): for any combination of optional name and info, a
supplied core, and any extras, the built document's blocks are name (if
present), info (if present), core, the extras in order, then the appended
`END ` block, which is always last; the `END ` block is unique provided no
extra block itself carries the `END ` identifier. -/
theorem build_block_ordering (nm : Option Name) (inf : Option Info) (core : Core)
    (xtra : List Block) (ctx : List Nat)
    (hnm : ∀ n, nm = some n → n.bytes.length ≤ U32MAX)
    (hctx : ctx.length ≤ U32MAX) :
    ∃ blx,
      Builder.build ⟨nm, inf, some core, xtra⟩ ctx = .ok ⟨ctx, blx, Footer.new ctx.length⟩ ∧
      blx = (nm.map (fun n => (⟨⟨NAME_IDENT, n.bytes.length⟩, .name n⟩ : Block))).toList ++
            (inf.map (fun i => (⟨⟨INFO_IDENT, Info.LEN⟩, .info i⟩ : Block))).toList ++
            [⟨⟨CORE_IDENT, Core.LEN⟩, .core core⟩] ++ xtra ++ [endBlock] ∧
      blx.getLast? = some endBlock ∧
      ((∀ blk ∈ xtra, blk.head.ident ≠ END_IDENT) →
        blx.countP (fun blk => decide (blk.head.ident = END_IDENT)) = 1) := by
  refine ⟨_, ?_, rfl, List.getLast?_concat _, ?_⟩
  · cases nm with
    | none =>
      cases inf <;>
        (simp only [Builder.build, mkBlock_info, mkBlock_core, Outcome.map]
         rw [if_pos hctx]
         simp [Option.toList, Option.map])
    | some n =>
      have hmk := mkBlock_name (hnm n rfl)
      cases inf <;>
        (simp only [Builder.build, hmk, mkBlock_info, mkBlock_core, Outcome.map]
         rw [if_pos hctx]
         simp [Option.toList, Option.map])
  · intro hx
    have hxc : xtra.countP (fun blk => decide (blk.head.ident = END_IDENT)) = 0 :=
      List.countP_eq_zero.mpr (fun a ha => by simpa using hx a ha)
    have hNE : (decide (NAME_IDENT = END_IDENT)) = false := rfl
    have hIE : (decide (INFO_IDENT = END_IDENT)) = false := rfl
    have hCE : (decide (CORE_IDENT = END_IDENT)) = false := rfl
    have hEE : (decide (END_IDENT = END_IDENT)) = true := rfl
    cases nm <;> cases inf <;>
      simp [List.countP_append, List.countP_cons, hxc, hNE, hIE, hCE, hEE,
        Option.toList, Option.map, endBlock]

/-- Witness for C9: a builder with a name, no info, the test core and no
extras produces the three-block document with the `END ` block last and
unique. -/
theorem build_block_ordering_witness :
    ∃ blx,
      Builder.build ⟨some ⟨[98]⟩, none, some setupCore, []⟩ [] =
        .ok ⟨[], blx, Footer.new ([] : List Nat).length⟩ ∧
      blx = ((some (⟨[98]⟩ : Name)).map
              (fun n => (⟨⟨NAME_IDENT, n.bytes.length⟩, .name n⟩ : Block))).toList ++
            ((none : Option Info).map
              (fun i => (⟨⟨INFO_IDENT, Info.LEN⟩, .info i⟩ : Block))).toList ++
            [⟨⟨CORE_IDENT, Core.LEN⟩, .core setupCore⟩] ++ [] ++ [endBlock] ∧
      blx.getLast? = some endBlock ∧
      ((∀ blk ∈ ([] : List Block), blk.head.ident ≠ END_IDENT) →
        blx.countP (fun blk => decide (blk.head.ident = END_IDENT)) = 1) :=
  build_block_ordering (some ⟨[98]⟩) none setupCore [] []
    (fun n h => by cases h; decide) (by decide)
